import Mathlib

/-!
Verification of the vue-privacy-worker consent/analytics worker.

Shallow embedding conventions:
* JavaScript numbers are modelled by `JSNum` (an exact rational together with
  the special values `NaN`, `+Infinity`, `-Infinity`); integer-valued counters
  that the code only ever initialises to `0` and increments are modelled as
  `Nat`.
* UTC calendar dates are modelled by their epoch-day number (days since
  1970-01-01, as an `Int`); `epochDay` implements the standard civil-calendar
  conversion, so a `Date` produced by parsing a `YYYY-MM-DD` string corresponds
  to the epoch day of that calendar date.
* The eventually-consistent key-value store is passed in explicitly: handlers
  receive the stored value(s) they would read, and return the value they would
  write together with a trace of the reads they perform.
-/

namespace VPW

/-- A JavaScript number: an exact rational, or one of the IEEE special values.
Arithmetic on finite values is modelled exactly (the analytics quantities are
small integers, far below 2^53, where doubles are exact). -/
inductive JSNum where
  | num (q : ℚ)
  | posInf
  | negInf
  | nan
  deriving DecidableEq

/-- JavaScript truthiness of a number: `0` and `NaN` are falsy, every other
number (including the infinities) is truthy. -/
def JSNum.truthy : JSNum → Bool
  | .num q => decide (q ≠ 0)
  | .posInf => true
  | .negInf => true
  | .nan => false

/-- The JavaScript comparison `x > 0`: true for positive finite values and for
`+Infinity`; false for `NaN`, `-Infinity` and non-positive finite values. -/
def JSNum.gtZero : JSNum → Bool
  | .num q => decide (0 < q)
  | .posInf => true
  | .negInf => false
  | .nan => false

/-- JavaScript addition on numbers, restricted to the value grid we model. -/
def JSNum.add : JSNum → JSNum → JSNum
  | .nan, _ => .nan
  | _, .nan => .nan
  | .posInf, .negInf => .nan
  | .negInf, .posInf => .nan
  | .posInf, _ => .posInf
  | _, .posInf => .posInf
  | .negInf, _ => .negInf
  | _, .negInf => .negInf
  | .num a, .num b => .num (a + b)

/-- JavaScript division of a number by a positive integer (the only division
the worker performs on a `JSNum`). -/
def JSNum.divNat : JSNum → Nat → JSNum
  | .num q, n => .num (q / n)
  | .posInf, _ => .posInf
  | .negInf, _ => .negInf
  | .nan, _ => .nan

/-- `Math.round` on an exact rational: round half toward positive infinity. -/
def jsRoundQ (q : ℚ) : ℤ := Int.floor (q + 1/2)

/-- `Math.round` on a JavaScript number: finite values round half toward
positive infinity; `NaN` and the infinities are returned unchanged. -/
def jsRound : JSNum → JSNum
  | .num q => .num (jsRoundQ q : ℚ)
  | x => x

/-- Gregorian leap-year test, as used by the JavaScript `Date` object. -/
def isLeapYear (y : Nat) : Bool :=
  (y % 4 = 0 && y % 100 ≠ 0) || y % 400 = 0

/-- Number of days in a month of the proleptic Gregorian calendar. -/
def daysInMonth (y m : Nat) : Nat :=
  if m = 2 then (if isLeapYear y then 29 else 28)
  else if m = 4 || m = 6 || m = 9 || m = 11 then 30
  else 31

/-- Validity of a `YYYY-MM-DD` component triple under the ECMAScript date-only
ISO parse: out-of-range months or days yield an invalid `Date`. -/
def jsDateValid (y m d : Nat) : Bool :=
  1 ≤ m && m ≤ 12 && 1 ≤ d && d ≤ daysInMonth y m

/-- Days since the civil epoch for the year `y + 400` (the 400-year shift keeps
the computation in `Nat`; it cancels in `epochDay`). Standard civil-from-days
era arithmetic. -/
def epochDayNat (y m d : Nat) : Nat :=
  let yy := y + 400
  let yAdj := if m ≤ 2 then yy - 1 else yy
  let era := yAdj / 400
  let yoe := yAdj % 400
  let mp := if m ≥ 3 then m - 3 else m + 9
  let doy := (153 * mp + 2) / 5 + (d - 1)
  let doe := yoe * 365 + yoe / 4 - yoe / 100 + doy
  era * 146097 + doe

/-- Epoch-day number (days since 1970-01-01 UTC) of the civil date `y-m-d`. -/
def epochDay (y m d : Nat) : Int :=
  (epochDayNat y m d : Int) - 719468 - 146097

example : epochDay 1970 1 1 = 0 := by decide
example : epochDay 1970 3 1 = 59 := by decide
example : epochDay 1969 12 31 = -1 := by decide
example : epochDay 2000 3 1 = 11017 := by decide
example : epochDay 2024 2 29 = 19782 := by decide
example : epochDay 2024 3 1 = 19783 := by decide

/-- Per-category accepted/rejected counters of a daily analytics record
(source: the `categories` entries of `DailyAnalytics` in `src/index.ts`). -/
structure CategoryStat where
  accepted : Nat
  rejected : Nat
  deriving DecidableEq

/-- The `timeToDecision` accumulator of a daily analytics record; the `sum`
is a JavaScript number (the code can add `+Infinity` into it). -/
structure TimeToDecision where
  sum : JSNum
  count : Nat
  deriving DecidableEq

/-- Aggregated analytics stored per domain per day (the `DailyAnalytics`
interface of `src/index.ts`). Well-formed stored records carry natural-number
counters; the `timeToDecision.sum` field is a general JavaScript number. -/
structure DailyAnalytics where
  banner_shown : Nat
  consent_given : Nat
  consent_updated : Nat
  banner_dismissed : Nat
  cat_analytics : CategoryStat
  cat_marketing : CategoryStat
  cat_functional : CategoryStat
  timeToDecision : TimeToDecision
  deriving DecidableEq

/-- `createEmptyDailyAnalytics` from `src/index.ts`: all counters zero. -/
def createEmptyDailyAnalytics : DailyAnalytics :=
  { banner_shown := 0, consent_given := 0, consent_updated := 0,
    banner_dismissed := 0,
    cat_analytics := ⟨0, 0⟩, cat_marketing := ⟨0, 0⟩, cat_functional := ⟨0, 0⟩,
    timeToDecision := ⟨.num 0, 0⟩ }

/-- `VALID_EVENT_TYPES` from `src/index.ts`. -/
def VALID_EVENT_TYPES : List String :=
  ["consent_given", "consent_updated", "banner_shown", "banner_dismissed"]

/-- The optional `categories` object of an analytics event request; each field
is present with a boolean value or effectively absent (any non-boolean value
fails the code's `typeof categories[cat] === "boolean"` test and behaves like
an absent field). -/
structure CategoriesField where
  analytics : Option Bool
  marketing : Option Bool
  functional : Option Bool
  deriving DecidableEq

/-- The optional `meta` object of an analytics event request. A non-numeric
`timeToDecision` value never passes the code's `typeof` test and is modelled
as absent. -/
structure MetaField where
  timeToDecision : Option JSNum
  deriving DecidableEq

/-- A parsed `POST /api/analytics` request body. The `event` field is the
request's event string when one is present; an absent, falsy or non-string
value is modelled as `none` (every such value fails the code's
`!eventType || !VALID_EVENT_TYPES.includes(eventType)` validation exactly like
a string outside the list does). -/
structure AnalyticsBody where
  event : Option String
  categories : Option CategoriesField
  meta : Option MetaField
  deriving DecidableEq

/-- The stored value the event handler reads for the day's bucket: absent,
present but not valid JSON (`JSON.parse` throws), or a parsed record. -/
inductive StoredBucket where
  | absent
  | corrupt
  | parsed (d : DailyAnalytics)
  deriving DecidableEq

/-- Outcome of an analytics event request: a 400 validation rejection, the
500 internal error produced when an exception escapes to the router's catch
block, or success carrying the record written back to the store. -/
inductive EventResult where
  | badRequest (msg : String)
  | internalError
  | success (written : DailyAnalytics)
  deriving DecidableEq

/-- Validation of the `event` field, from `src/index.ts` lines 410-418: the
value must be truthy and a member of `VALID_EVENT_TYPES`. -/
def validEventField (d : AnalyticsBody) : Bool :=
  match d.event with
  | some s => !(s = "") && VALID_EVENT_TYPES.contains s
  | none => false

/-- Increment the counter matching the event type (`analytics[eventType]++`). -/
def incrementEvent (a : DailyAnalytics) (e : String) : DailyAnalytics :=
  if e = "banner_shown" then { a with banner_shown := a.banner_shown + 1 }
  else if e = "consent_given" then { a with consent_given := a.consent_given + 1 }
  else if e = "consent_updated" then { a with consent_updated := a.consent_updated + 1 }
  else if e = "banner_dismissed" then { a with banner_dismissed := a.banner_dismissed + 1 }
  else a

/-- Per-category update: a boolean `true` increments `accepted`, `false`
increments `rejected`, an absent (or non-boolean) value changes nothing. -/
def updateCat (st : CategoryStat) : Option Bool → CategoryStat
  | some true => { st with accepted := st.accepted + 1 }
  | some false => { st with rejected := st.rejected + 1 }
  | none => st

/-- Apply one validated analytics event to a daily record, mirroring
`handleAnalyticsEvent` lines 432-461: increment the event counter; update the
category stats when `categories` is supplied and the event is `consent_given`
or `consent_updated`; add `timeToDecision` to the accumulator when the value
is truthy and `> 0` (this is the code's exact guard — it has no finiteness
check). -/
def applyEvent (a : DailyAnalytics) (data : AnalyticsBody) : DailyAnalytics :=
  let e := data.event.getD ""
  let a1 := incrementEvent a e
  let a2 :=
    match data.categories with
    | some cats =>
        if e = "consent_given" || e = "consent_updated" then
          { a1 with
            cat_analytics := updateCat a1.cat_analytics cats.analytics,
            cat_marketing := updateCat a1.cat_marketing cats.marketing,
            cat_functional := updateCat a1.cat_functional cats.functional }
        else a1
    | none => a1
  let ttd : Option JSNum :=
    match data.meta with
    | some m => m.timeToDecision
    | none => none
  match ttd with
  | some v =>
      if v.truthy && v.gtZero then
        { a2 with timeToDecision :=
            ⟨a2.timeToDecision.sum.add v, a2.timeToDecision.count + 1⟩ }
      else a2
  | none => a2

/-- `handleAnalyticsEvent` from `src/index.ts` (lines 396-469), as a function
of the parsed request body (`none` models a body that failed `request.json()`
or was not an object) and of the stored value for the day's bucket. The second
component records whether the handler read `ANALYTICS_KV` at all. A corrupt
stored value makes `JSON.parse` throw; the exception escapes to the router's
catch block, which returns a 500 internal error, and nothing is written. -/
def handleAnalyticsEvent (body : Option AnalyticsBody) (stored : StoredBucket) :
    EventResult × Bool :=
  match body with
  | none => (.badRequest "Invalid request body", false)
  | some data =>
      if !validEventField data then
        (.badRequest "Invalid or missing event type", false)
      else
        match stored with
        | .corrupt => (.internalError, true)
        | .absent => (.success (applyEvent createEmptyDailyAnalytics data), true)
        | .parsed d => (.success (applyEvent d data), true)

/-- ASCII alphanumeric character class `[a-zA-Z0-9]`. -/
def isAlnum (c : Char) : Bool := c.isAlpha || c.isDigit

/-- A character allowed in the interior of a domain parameter: `[a-zA-Z0-9.-]`. -/
def isDomChar (c : Char) : Bool := isAlnum c || c = '.' || c = '-'

/-- Tail of the domain regex: interior characters from `[a-zA-Z0-9.-]`, final
character alphanumeric (so a matching string has at least two characters). -/
def domainTail : List Char → Bool
  | [] => false
  | [c] => isAlnum c
  | c :: rest => isDomChar c && domainTail rest

/-- The admin report endpoint's domain filter
`/^[a-zA-Z0-9][a-zA-Z0-9.-]*[a-zA-Z0-9]$/` from `src/index.ts` line 501. -/
def isValidDomainParam (s : String) : Bool :=
  match s.data with
  | [] => false
  | c :: rest => isAlnum c && domainTail rest

/-- Domain resolution of the report endpoint (lines 498-503): use the query
parameter when it is truthy and matches the filter, else fall back to the
request host. -/
def resolveDomain (host : String) (domainParam : Option String) : String :=
  match domainParam with
  | some s => if !s.isEmpty && isValidDomainParam s then s else host
  | none => host

/-- The date-format regex `/^\d{4}-\d{2}-\d{2}$/` from `src/index.ts`. -/
def isDateFormat (s : String) : Bool :=
  match s.data with
  | [y1, y2, y3, y4, s1, m1, m2, s2, d1, d2] =>
      y1.isDigit && y2.isDigit && y3.isDigit && y4.isDigit && s1 = '-' &&
      m1.isDigit && m2.isDigit && s2 = '-' && d1.isDigit && d2.isDigit
  | _ => false

/-- Numeric value of an ASCII digit character. -/
def digitVal (c : Char) : Nat := c.toNat - '0'.toNat

/-- Split a string matching the date regex into its `(year, month, day)`
components; `none` when the format does not match. -/
def parseDateString (s : String) : Option (Nat × Nat × Nat) :=
  if isDateFormat s then
    match s.data with
    | [y1, y2, y3, y4, _, m1, m2, _, d1, d2] =>
        some (digitVal y1 * 1000 + digitVal y2 * 100 + digitVal y3 * 10 + digitVal y4,
              digitVal m1 * 10 + digitVal m2,
              digitVal d1 * 10 + digitVal d2)
    | _ => none
  else none

/-- `new Date(s)` on a `YYYY-MM-DD` string, returning the epoch-day number of
the UTC calendar date, or `none` for an invalid date (`isNaN(getTime())`).
Only strings that already passed the date regex reach this parse in the code,
so other formats are mapped to `none`. -/
def parseJsDate (s : String) : Option Int :=
  match parseDateString s with
  | some (y, m, d) => if jsDateValid y m d then some (epochDay y m d) else none
  | none => none

example : parseJsDate "1970-01-01" = some 0 := by decide
example : parseJsDate "2024-02-31" = none := by decide
example : parseJsDate "2024-13-01" = none := by decide

/-- The ascending run of epoch days `f, f+1, ..., t` produced by the
date-enumeration loop of `getDateRange`. -/
def rangeDays (f t : Int) : List Int :=
  (List.range (t + 1 - f).toNat).map (fun i : ℕ => f + (i : Int))

/-- `getDateRange` from `src/index.ts` lines 636-656: parse both endpoints,
return the empty list when either is invalid or `from` is after `to`, else
enumerate every UTC calendar date of the inclusive range in ascending order. -/
def getDateRange (fromS toS : String) : List Int :=
  match parseJsDate fromS, parseJsDate toS with
  | some f, some t => if f > t then [] else rangeDays f t
  | _, _ => []

set_option maxRecDepth 8000

example : getDateRange "2026-01-01" "2026-01-03"
    = [epochDay 2026 1 1, epochDay 2026 1 2, epochDay 2026 1 3] := by decide
example : (getDateRange "2024-01-01" "2024-12-31").length = 366 := by decide

/-- Integer division of `p` by `q > 0`, rounded to nearest with ties to even —
the rounding step of IEEE-754 round-to-nearest-even. -/
def divRoundHalfEven (p q : Nat) : Nat :=
  let d := p / q
  let r := p % q
  if 2 * r < q then d
  else if q < 2 * r then d + 1
  else if d % 2 = 0 then d else d + 1

/-- Fuel-driven floor of the base-2 logarithm (`natLog2 n = ⌊log2 n⌋` for
`n ≥ 1`); the fuel argument only bounds the structural recursion. -/
def natLog2F : Nat → Nat → Nat
  | 0, _ => 0
  | fuel + 1, n => if n ≤ 1 then 0 else natLog2F fuel (n / 2) + 1

/-- Floor of the base-2 logarithm of a natural number (`0` for `n ≤ 1`). -/
def natLog2 (n : Nat) : Nat := natLog2F n n

/-- Does the positive rational `num / den` satisfy `num / den ≥ 2 ^ e`? -/
def geTwoPow (num den : Nat) (e : ℤ) : Bool :=
  if 0 ≤ e then den * 2 ^ e.toNat ≤ num
  else den ≤ num * 2 ^ (-e).toNat

/-- The exact binary exponent of a positive rational `num / den`: the unique
`e` with `2 ^ e ≤ num / den < 2 ^ (e + 1)`. -/
def qFloorLog2 (num den : Nat) : ℤ :=
  let e0 : ℤ := (natLog2 num : ℤ) - (natLog2 den : ℤ)
  if geTwoPow num den e0 then e0 else e0 - 1

/-- The IEEE-754 binary64 value nearest to the positive rational `num / den`
(round to nearest, ties to even): scale to a 53-bit significand using the
binary exponent — or to the fixed `2 ^ (-1074)` grid in the subnormal range —
round half-to-even, and scale back. Values at or above `2 ^ 1024` (overflow to
Infinity) are not special-cased: every quantity on the analytics report path
stays far below that threshold. -/
def roundPos (num den : Nat) : ℚ :=
  let ee := qFloorLog2 num den
  let k : ℤ := if ee < -1022 then 1074 else 52 - ee
  if 0 ≤ k then
    mkRat (divRoundHalfEven (num * 2 ^ k.toNat) den) (2 ^ k.toNat)
  else
    ((divRoundHalfEven num (den * 2 ^ (-k).toNat) * 2 ^ (-k).toNat : Nat) : ℚ)

/-- The IEEE-754 binary64 double nearest to an exact rational (round to
nearest, ties to even), as an exact rational. Every JavaScript arithmetic
operator returns `roundDouble` of the exact result of its operands' values. -/
def roundDouble (q : ℚ) : ℚ :=
  if q = 0 then 0
  else if 0 < q then roundPos q.num.toNat q.den
  else -(roundPos (-q.num).toNat q.den)

/-- `calculateAcceptRate` from `src/index.ts` lines 630-634:
`Math.round((accepted / total) * 1000) / 1000`, or `0` when the total is 0,
in IEEE-754 binary64 semantics: the division `accepted / total`, the
multiplication by 1000 and the final division by 1000 each round their exact
result to the nearest double (`accepted` and `total` are exact integer sums
far below `2 ^ 53`, and `Math.round` of a double is the exact integer nearest
to its value with ties toward positive infinity, `jsRoundQ`, itself exactly
representable). The double semantics matter: for `accepted = 1001`,
`rejected = 999` the product evaluates to the double `500.49999999999994`, so
`Math.round` yields `500` and the result is `0.5`, not the `0.501` that exact
arithmetic would give. -/
def calculateAcceptRate (st : CategoryStat) : ℚ :=
  let total := st.accepted + st.rejected
  if total = 0 then 0
  else
    roundDouble ((jsRoundQ (roundDouble
      (roundDouble ((st.accepted : ℚ) / (total : ℚ)) * 1000)) : ℚ) / 1000)

/-- One entry of the report's `daily` breakdown, carrying the date (as an
epoch-day number) and the four raw event counters. -/
structure DailyEntry where
  date : Int
  bannerShown : Nat
  consentGiven : Nat
  consentUpdated : Nat
  bannerDismissed : Nat
  deriving DecidableEq

/-- The `totals` block of a report. -/
structure ReportTotals where
  bannerShown : Nat
  consentGiven : Nat
  consentUpdated : Nat
  bannerDismissed : Nat
  optInRate : ℚ
  deriving DecidableEq

/-- The `byCategory` block of a report: one acceptance rate per category. -/
structure ByCategory where
  analytics : ℚ
  marketing : ℚ
  functional : ℚ
  deriving DecidableEq

/-- The `AnalyticsReportResponse` structure of `src/index.ts`. -/
structure AnalyticsReport where
  domain : String
  periodFrom : String
  periodTo : String
  totals : ReportTotals
  byCategory : ByCategory
  avgTimeToDecision : Option JSNum
  daily : List DailyEntry
  deriving DecidableEq

/-- Outcome of a `GET /api/analytics` request: an error status with its
message, or a report. -/
inductive ReportOutcome where
  | err (status : Nat) (msg : String)
  | ok (r : AnalyticsReport)
  deriving DecidableEq

/-- A `GET /api/analytics` request, reduced to the inputs the handler
consumes: the `Authorization` header and the `domain`, `from` and `to` query
parameters (each `none` when absent; `url.searchParams.get` can also yield the
empty string, which the code treats as falsy). -/
structure ReportRequest where
  authHeader : Option String
  domainParam : Option String
  fromParam : Option String
  toParam : Option String
  deriving DecidableEq

/-- The literal test `authHeader.startsWith("Bearer ")`. -/
def startsWithBearer (s : String) : Bool :=
  match s.data with
  | 'B' :: 'e' :: 'a' :: 'r' :: 'e' :: 'r' :: ' ' :: _ => true
  | _ => false

/-- `authHeader.slice(7)`: the token after the `Bearer ` marker. -/
def bearerToken (s : String) : String := ⟨s.data.drop 7⟩

/-- Build the report from the fetched day records, mirroring
`handleAnalyticsReport` lines 546-625: sequentially fetch every date of the
range (dates with no record are skipped), fold the totals, the per-category
totals and the time-to-decision accumulator over the fetched records, derive
the rates, and list the per-day breakdown in fetch order. -/
def buildReport (store : String → Int → Option DailyAnalytics) (dom : String)
    (fromS toS : String) (dates : List Int) : AnalyticsReport :=
  let dailyData : List (Int × DailyAnalytics) :=
    dates.filterMap (fun d => (store dom d).map (fun a => (d, a)))
  let bannerShown : Nat := dailyData.foldl (fun acc p => acc + p.2.banner_shown) 0
  let consentGiven : Nat := dailyData.foldl (fun acc p => acc + p.2.consent_given) 0
  let consentUpdated : Nat := dailyData.foldl (fun acc p => acc + p.2.consent_updated) 0
  let bannerDismissed : Nat := dailyData.foldl (fun acc p => acc + p.2.banner_dismissed) 0
  let catA : CategoryStat :=
    ⟨dailyData.foldl (fun acc p => acc + p.2.cat_analytics.accepted) 0,
     dailyData.foldl (fun acc p => acc + p.2.cat_analytics.rejected) 0⟩
  let catM : CategoryStat :=
    ⟨dailyData.foldl (fun acc p => acc + p.2.cat_marketing.accepted) 0,
     dailyData.foldl (fun acc p => acc + p.2.cat_marketing.rejected) 0⟩
  let catF : CategoryStat :=
    ⟨dailyData.foldl (fun acc p => acc + p.2.cat_functional.accepted) 0,
     dailyData.foldl (fun acc p => acc + p.2.cat_functional.rejected) 0⟩
  let ttdSum : JSNum :=
    dailyData.foldl (fun acc p => acc.add p.2.timeToDecision.sum) (JSNum.num 0)
  let ttdCount : Nat := dailyData.foldl (fun acc p => acc + p.2.timeToDecision.count) 0
  let optInRate : ℚ :=
    if bannerShown > 0 then (consentGiven : ℚ) / (bannerShown : ℚ) else 0
  { domain := dom, periodFrom := fromS, periodTo := toS,
    totals := ⟨bannerShown, consentGiven, consentUpdated, bannerDismissed,
               (jsRoundQ (optInRate * 1000) : ℚ) / 1000⟩,
    byCategory := ⟨calculateAcceptRate catA, calculateAcceptRate catM,
                   calculateAcceptRate catF⟩,
    avgTimeToDecision :=
      if ttdCount > 0 then some (jsRound (ttdSum.divNat ttdCount)) else none,
    daily := dailyData.map (fun p =>
      ⟨p.1, p.2.banner_shown, p.2.consent_given, p.2.consent_updated,
       p.2.banner_dismissed⟩) }

/-- The post-authorization part of `handleAnalyticsReport` (lines 504-627):
parameter presence and format validation, date-range generation with its
empty-range and 366-day boundary checks, then the fetch/aggregate phase. The
second component is the list of `(domain, date)` keys read from the store;
every rejection happens before any read. The report path never writes. -/
def reportCore (store : String → Int → Option DailyAnalytics) (dom : String)
    (fromS toS : String) : ReportOutcome × List (String × Int) :=
  if fromS = "" || toS = "" then
    (.err 400 "Missing from/to date parameters", [])
  else if !(isDateFormat fromS && isDateFormat toS) then
    (.err 400 "Invalid date format. Use YYYY-MM-DD", [])
  else if (getDateRange fromS toS).length = 0 then
    (.err 400 "Invalid date range", [])
  else if (getDateRange fromS toS).length > 366 then
    (.err 400 "Date range too large (max 366 days)", [])
  else
    (.ok (buildReport store dom fromS toS (getDateRange fromS toS)),
     (getDateRange fromS toS).map (fun d => (dom, d)))

/-- `handleAnalyticsReport` from `src/index.ts` lines 471-628: admin
authorization (absent server secret is a 500 misconfiguration, missing or
non-Bearer header a 401, wrong token a 403), then domain resolution and the
report core. -/
def handleAnalyticsReport (adminToken : Option String) (host : String)
    (store : String → Int → Option DailyAnalytics) (req : ReportRequest) :
    ReportOutcome × List (String × Int) :=
  match adminToken with
  | none => (.err 500 "Admin access not configured", [])
  | some secret =>
      match req.authHeader with
      | none => (.err 401 "Authorization required", [])
      | some auth =>
          if !startsWithBearer auth then (.err 401 "Authorization required", [])
          else if bearerToken auth ≠ secret then (.err 403 "Invalid token", [])
          else
            reportCore store (resolveDomain host req.domainParam)
              (req.fromParam.getD "") (req.toParam.getD "")

/-- Rate limiter configuration `{maxRequests, windowSeconds}`; a valid
configuration has both fields positive (spec §4.1). -/
structure RateLimitConfig where
  maxRequests : Nat
  windowSeconds : Nat
  deriving DecidableEq

/-- Stored rate-limit state for one identity: the request count of the
current window and the window end (Unix seconds). -/
structure RateLimitState where
  count : Nat
  resetAt : Int
  deriving DecidableEq

/-- Result of a rate-limit check: `{allowed, remaining, resetAt, limit}`. -/
structure RateLimitResult where
  allowed : Bool
  remaining : Nat
  resetAt : Int
  limit : Nat
  deriving DecidableEq

/-- What the store holds under `rl:{identity}`: nothing, a malformed value
(parse failure, wrong types, NaN or negative count — all treated identically
to "no prior state"), or a valid state. -/
inductive StoredRateLimit where
  | absent
  | malformed
  | valid (st : RateLimitState)
  deriving DecidableEq

/-- Modelled from the spec: the fixed-window rate limiter of spec §4.1 is not
part of the provided sources (the repository ships only its test suite;
`src/index.ts` has no rate-limiting code and the README lists rate limiting as
planned). Steps, following the spec's algorithm: a malformed stored value is
treated as absent; an active window (`resetAt > now`) increments the stored
count, otherwise a fresh window starts with count 1 and
`resetAt = now + windowSeconds`; `allowed = tentativeCount <= maxRequests`;
`remaining = max(0, maxRequests - tentativeCount)` (natural subtraction);
the tentative state is persisted only when allowed — a denied request leaves
the store untouched. The second component is the store content afterwards. -/
def rateLimitCheck (cfg : RateLimitConfig) (stored : StoredRateLimit)
    (now : Int) : RateLimitResult × StoredRateLimit :=
  let prior : Option RateLimitState :=
    match stored with
    | .valid st => some st
    | _ => none
  let tentative : RateLimitState :=
    match prior with
    | some st =>
        if now < st.resetAt then ⟨st.count + 1, st.resetAt⟩
        else ⟨1, now + (cfg.windowSeconds : Int)⟩
    | none => ⟨1, now + (cfg.windowSeconds : Int)⟩
  let allowed := decide (tentative.count ≤ cfg.maxRequests)
  let result : RateLimitResult :=
    ⟨allowed, cfg.maxRequests - tentative.count, tentative.resetAt,
     cfg.maxRequests⟩
  if allowed then (result, .valid tentative) else (result, stored)

/-- Run a sequence of rate-limit checks for one identity, one per timestamp,
threading the stored state (each check reads what the previous one wrote). -/
def rateLimitRun (cfg : RateLimitConfig) (stored : StoredRateLimit) :
    List Int → List RateLimitResult × StoredRateLimit
  | [] => ([], stored)
  | t :: ts =>
      let step := rateLimitCheck cfg stored t
      let rest := rateLimitRun cfg step.2 ts
      (step.1 :: rest.1, rest.2)

/-- Modelled from the spec: the per-category acceptance rate is
`accepted / (accepted + rejected)` when that sum is positive, else `0`,
rounded to 3 decimal places with round-half-up on the third decimal digit,
in exact rational arithmetic. The program does not satisfy this at tie
points of the double grid (see `calculateAcceptRate`). -/
def acceptRateSpec (a b : Nat) : ℚ :=
  if a + b = 0 then 0
  else (Int.floor ((a : ℚ) / ((a : ℚ) + (b : ℚ)) * 1000 + 1/2) : ℚ) / 1000

/-- The per-category acceptance rate in IEEE-754 binary64 semantics,
written over the two summed category totals: the binary64 evaluation of
`Math.round((accepted / (accepted + rejected)) * 1000) / 1000` when the sum
is positive, else `0`. -/
def acceptRateDouble (a b : Nat) : ℚ :=
  if a + b = 0 then 0
  else
    roundDouble ((jsRoundQ (roundDouble
      (roundDouble ((a : ℚ) / ((a : ℚ) + (b : ℚ))) * 1000)) : ℚ) / 1000)

lemma calculateAcceptRate_eq_double (st : CategoryStat) :
    calculateAcceptRate st = acceptRateDouble st.accepted st.rejected := by
  unfold calculateAcceptRate acceptRateDouble
  rcases st with ⟨a, b⟩
  by_cases h : a + b = 0 <;> simp [h]

lemma foldl_pairs (dates : List Int) (g : Int → Option DailyAnalytics)
    (h : DailyAnalytics → Nat) (n : Nat) :
    (dates.filterMap (fun d => (g d).map (fun a => (d, a)))).foldl
        (fun acc p => acc + h p.2) n
      = n + ((dates.filterMap g).map h).sum := by
  induction dates generalizing n with
  | nil => simp
  | cons d ds ih =>
      cases hg : g d <;> simp [List.filterMap_cons, hg, ih] <;> omega

lemma foldl_pairs_js (dates : List Int) (g : Int → Option DailyAnalytics)
    (n : JSNum) :
    (dates.filterMap (fun d => (g d).map (fun a => (d, a)))).foldl
        (fun acc p => acc.add p.2.timeToDecision.sum) n
      = (dates.filterMap g).foldl
          (fun acc rec => acc.add rec.timeToDecision.sum) n := by
  induction dates generalizing n with
  | nil => simp
  | cons d ds ih =>
      cases hg : g d <;> simp [List.filterMap_cons, hg, ih]

lemma filterMap_pairs_map {β : Type} (dates : List Int)
    (g : Int → Option DailyAnalytics) (F : Int × DailyAnalytics → β) :
    (dates.filterMap (fun d => (g d).map (fun a => (d, a)))).map F
      = dates.filterMap (fun d => (g d).map (fun a => F (d, a))) := by
  induction dates with
  | nil => simp
  | cons d ds ih =>
      cases hg : g d <;> simp [List.filterMap_cons, hg, ih]

lemma filterMap_pairs_fst (dates : List Int)
    (g : Int → Option DailyAnalytics) :
    (dates.filterMap (fun d => (g d).map (fun a => (d, a)))).map Prod.fst
      = dates.filter (fun d => (g d).isSome) := by
  induction dates with
  | nil => simp
  | cons d ds ih =>
      cases hg : g d <;> simp [List.filterMap_cons, List.filter_cons, hg, ih]

lemma filterMap_entry_dates (dates : List Int)
    (g : Int → Option DailyAnalytics) :
    ((dates.filterMap (fun d => (g d).map (fun a =>
        (⟨d, a.banner_shown, a.consent_given, a.consent_updated,
          a.banner_dismissed⟩ : DailyEntry)))).map (fun e => e.date))
      = dates.filter (fun d => (g d).isSome) := by
  induction dates with
  | nil => simp
  | cons d ds ih =>
      cases hg : g d <;> simp [List.filterMap_cons, List.filter_cons, hg, ih]

lemma parseJsDate_isDateFormat {s : String} {v : Int}
    (h : parseJsDate s = some v) : isDateFormat s = true := by
  unfold parseJsDate parseDateString at h
  by_cases hf : isDateFormat s
  · exact hf
  · simp [hf] at h

lemma isDateFormat_ne_empty {s : String} (h : isDateFormat s = true) :
    s ≠ "" := by
  intro hs
  rw [hs] at h
  simp [isDateFormat] at h

lemma getDateRange_ne_nil_inv {fs ts : String} (h : getDateRange fs ts ≠ []) :
    ∃ f t, parseJsDate fs = some f ∧ parseJsDate ts = some t ∧ f ≤ t ∧
      getDateRange fs ts = rangeDays f t := by
  cases hf : parseJsDate fs with
  | none => exact absurd (show getDateRange fs ts = [] by simp [getDateRange, hf]) h
  | some f =>
      cases ht : parseJsDate ts with
      | none =>
          exact absurd (show getDateRange fs ts = [] by simp [getDateRange, hf, ht]) h
      | some t =>
          by_cases hgt : f > t
          · exact absurd
              (show getDateRange fs ts = [] by simp [getDateRange, hf, ht, hgt]) h
          · exact ⟨f, t, rfl, rfl, by omega, by simp [getDateRange, hf, ht, hgt]⟩

lemma rangeDays_pairwise (f t : Int) : (rangeDays f t).Pairwise (· < ·) := by
  unfold rangeDays
  refine List.Pairwise.map (fun i : ℕ => f + (i : Int)) ?_ (List.pairwise_lt_range _)
  intro a b hab
  show f + (a : Int) < f + (b : Int)
  omega

lemma getDateRange_pairwise (fs ts : String) :
    (getDateRange fs ts).Pairwise (· < ·) := by
  unfold getDateRange
  cases parseJsDate fs with
  | none => simp
  | some f =>
      cases parseJsDate ts with
      | none => simp
      | some t =>
          by_cases hgt : f > t
          · simp [hgt]
          · simpa [hgt] using rangeDays_pairwise f t

lemma reportCore_ok_inv {store : String → Int → Option DailyAnalytics}
    {dom fromS toS : String} {r : AnalyticsReport}
    {reads : List (String × Int)}
    (h : reportCore store dom fromS toS = (.ok r, reads)) :
    r = buildReport store dom fromS toS (getDateRange fromS toS) ∧
    reads = (getDateRange fromS toS).map (fun d => (dom, d)) ∧
    getDateRange fromS toS ≠ [] ∧
    (getDateRange fromS toS).length ≤ 366 := by
  unfold reportCore at h
  split at h
  · simp at h
  · split at h
    · simp at h
    · split at h
      · simp at h
      · split at h
        · simp at h
        · rename_i h3 h4
          simp only [Prod.mk.injEq, ReportOutcome.ok.injEq] at h
          refine ⟨h.1.symm, h.2.symm, ?_, by omega⟩
          intro hnil
          rw [hnil] at h3
          simp at h3

lemma buildReport_byCategory (store : String → Int → Option DailyAnalytics)
    (dom fS tS : String) (dates : List Int) :
    (buildReport store dom fS tS dates).byCategory =
      ⟨acceptRateDouble
          (((dates.filterMap (store dom)).map (fun rec => rec.cat_analytics.accepted)).sum)
          (((dates.filterMap (store dom)).map (fun rec => rec.cat_analytics.rejected)).sum),
        acceptRateDouble
          (((dates.filterMap (store dom)).map (fun rec => rec.cat_marketing.accepted)).sum)
          (((dates.filterMap (store dom)).map (fun rec => rec.cat_marketing.rejected)).sum),
        acceptRateDouble
          (((dates.filterMap (store dom)).map (fun rec => rec.cat_functional.accepted)).sum)
          (((dates.filterMap (store dom)).map (fun rec => rec.cat_functional.rejected)).sum)⟩ := by
  simp only [buildReport]
  rw [foldl_pairs dates (store dom) (fun rec => rec.cat_analytics.accepted) 0,
      foldl_pairs dates (store dom) (fun rec => rec.cat_analytics.rejected) 0,
      foldl_pairs dates (store dom) (fun rec => rec.cat_marketing.accepted) 0,
      foldl_pairs dates (store dom) (fun rec => rec.cat_marketing.rejected) 0,
      foldl_pairs dates (store dom) (fun rec => rec.cat_functional.accepted) 0,
      foldl_pairs dates (store dom) (fun rec => rec.cat_functional.rejected) 0]
  simp [calculateAcceptRate_eq_double]

lemma buildReport_totals (store : String → Int → Option DailyAnalytics)
    (dom fS tS : String) (dates : List Int) :
    (buildReport store dom fS tS dates).totals.bannerShown
        = ((dates.filterMap (store dom)).map (fun rec => rec.banner_shown)).sum ∧
    (buildReport store dom fS tS dates).totals.consentGiven
        = ((dates.filterMap (store dom)).map (fun rec => rec.consent_given)).sum ∧
    (buildReport store dom fS tS dates).totals.consentUpdated
        = ((dates.filterMap (store dom)).map (fun rec => rec.consent_updated)).sum ∧
    (buildReport store dom fS tS dates).totals.bannerDismissed
        = ((dates.filterMap (store dom)).map (fun rec => rec.banner_dismissed)).sum := by
  simp only [buildReport]
  rw [foldl_pairs dates (store dom) (fun rec => rec.banner_shown) 0,
      foldl_pairs dates (store dom) (fun rec => rec.consent_given) 0,
      foldl_pairs dates (store dom) (fun rec => rec.consent_updated) 0,
      foldl_pairs dates (store dom) (fun rec => rec.banner_dismissed) 0]
  simp

lemma buildReport_avg (store : String → Int → Option DailyAnalytics)
    (dom fS tS : String) (dates : List Int) :
    (buildReport store dom fS tS dates).avgTimeToDecision =
      (if 0 < ((dates.filterMap (store dom)).map (fun rec => rec.timeToDecision.count)).sum
       then some (jsRound
          (((dates.filterMap (store dom)).foldl
              (fun acc rec => acc.add rec.timeToDecision.sum) (JSNum.num 0)).divNat
            (((dates.filterMap (store dom)).map (fun rec => rec.timeToDecision.count)).sum)))
       else none) := by
  simp only [buildReport]
  rw [foldl_pairs dates (store dom) (fun rec => rec.timeToDecision.count) 0,
      foldl_pairs_js dates (store dom) (JSNum.num 0)]
  simp

lemma buildReport_daily (store : String → Int → Option DailyAnalytics)
    (dom fS tS : String) (dates : List Int) :
    (buildReport store dom fS tS dates).daily =
      dates.filterMap (fun d => (store dom d).map (fun a =>
        ⟨d, a.banner_shown, a.consent_given, a.consent_updated,
         a.banner_dismissed⟩)) := by
  simp only [buildReport]
  rw [filterMap_pairs_map dates (store dom) (fun p : Int × DailyAnalytics =>
    (⟨p.1, p.2.banner_shown, p.2.consent_given, p.2.consent_updated,
      p.2.banner_dismissed⟩ : DailyEntry))]

lemma handler_auth_ok (secret host : String)
    (store : String → Int → Option DailyAnalytics) (req : ReportRequest)
    (auth : String) (ha : req.authHeader = some auth)
    (h1 : startsWithBearer auth = true) (h2 : bearerToken auth = secret) :
    handleAnalyticsReport (some secret) host store req
      = reportCore store (resolveDomain host req.domainParam)
          (req.fromParam.getD "") (req.toParam.getD "") := by
  simp [handleAnalyticsReport, ha, h1, h2]

/-- C2: the claim states that the `timeToDecision` accumulator changes iff the
supplied value is a finite, strictly positive number, and that `+Infinity`
(like every non-finite value) leaves the accumulator unchanged while the event
still succeeds. The code's guard (`meta.timeToDecision` truthy, a number, and
`> 0`, `src/index.ts` lines 452-461) has no finiteness check, so `+Infinity`
passes it: recording a `banner_dismissed` event with
`meta.timeToDecision = +Infinity` over an empty bucket yields a success whose
written record has `timeToDecision.sum = +Infinity` and
`timeToDecision.count = 1` — the accumulator changed, contradicting the claim,
the spec (§4.2) and the intent of the repository's own test
"POST /api/analytics ignores Infinity timeToDecision values". -/
theorem timeToDecision_infinity_changes_accumulator :
    handleAnalyticsEvent
        (some ⟨some "banner_dismissed", none, some ⟨some .posInf⟩⟩) .absent
      = (.success { createEmptyDailyAnalytics with
          banner_dismissed := 1, timeToDecision := ⟨.posInf, 1⟩ }, true) := by
  decide

/-- C3 counterexample: the claim states that an existing bucket value that
fails to parse as JSON is treated as a fresh empty bucket, the event counter
is incremented on it, and the write completes successfully. At the concrete
input: a valid `banner_shown` event over a corrupt stored bucket, the handler
instead returns the 500 internal error (the `JSON.parse` exception escapes to
the router's catch block) and does not produce the success the claim
predicts. -/
theorem analytics_corrupt_bucket_counterexample :
    (handleAnalyticsEvent (some ⟨some "banner_shown", none, none⟩) .corrupt
      = (.internalError, true)) ∧
    handleAnalyticsEvent (some ⟨some "banner_shown", none, none⟩) .corrupt
      ≠ (.success
          (applyEvent createEmptyDailyAnalytics ⟨some "banner_shown", none, none⟩),
         true) := by
  constructor
  · decide
  · decide

/-- C3 (amended): for every analytics record request with a valid event type,
when the stored value for the day's bucket exists but fails to parse as JSON,
the operation fails with a 500 internal error after reading the store; no
fresh empty bucket is substituted and nothing is written (only an absent
stored value is treated as a fresh empty bucket). -/
theorem analytics_corrupt_bucket_internal_error (data : AnalyticsBody)
    (hv : validEventField data = true) :
    handleAnalyticsEvent (some data) .corrupt = (.internalError, true) := by
  simp [handleAnalyticsEvent, hv]

/-- C3 witness: the amended theorem applied to a concrete valid event. -/
theorem analytics_corrupt_bucket_internal_error_witness :
    validEventField ⟨some "banner_shown", none, none⟩ = true ∧
    handleAnalyticsEvent (some ⟨some "banner_shown", none, none⟩) .corrupt
      = (.internalError, true) :=
  ⟨by decide, analytics_corrupt_bucket_internal_error _ (by decide)⟩

/-- C10: for every analytics record request whose `event` field is missing,
falsy, or not one of the four valid event types, the analytics endpoint itself
rejects the request with the 400 error "Invalid or missing event type", and
the `ANALYTICS_KV` store is not accessed (the second component of the result,
the store-read flag, is `false`), whatever the stored bucket holds. -/
theorem analytics_event_validated_before_store (data : AnalyticsBody)
    (stored : StoredBucket) (h : validEventField data = false) :
    handleAnalyticsEvent (some data) stored
      = (.badRequest "Invalid or missing event type", false) := by
  simp [handleAnalyticsEvent, h]

/-- C10 witness: the theorem applied to a concrete invalid event type over a
concrete stored bucket. -/
theorem analytics_event_validated_before_store_witness :
    validEventField ⟨some "invalid_event", none, none⟩ = false ∧
    handleAnalyticsEvent (some ⟨some "invalid_event", none, none⟩)
        (.parsed createEmptyDailyAnalytics)
      = (.badRequest "Invalid or missing event type", false) :=
  ⟨by decide, analytics_event_validated_before_store _ _ (by decide)⟩

/-- C9: for every report request whose `domain` query parameter is supplied
but does not match the allowed domain format, the report operation does not
reject the request: the resolved domain silently falls back to the request's
host, and the whole request behaves exactly as if no `domain` parameter had
been supplied. -/
theorem report_invalid_domain_falls_back_to_host (adminToken : Option String)
    (host : String) (store : String → Int → Option DailyAnalytics)
    (req : ReportRequest) (s : String) (hdom : req.domainParam = some s)
    (hinv : isValidDomainParam s = false) :
    resolveDomain host req.domainParam = host ∧
    handleAnalyticsReport adminToken host store req
      = handleAnalyticsReport adminToken host store
          { req with domainParam := none } := by
  have hres : resolveDomain host (some s) = host := by
    simp [resolveDomain, hinv]
  obtain ⟨ah, dp, fp, tp⟩ := req
  simp only at hdom
  subst hdom
  refine ⟨hres, ?_⟩
  cases adminToken with
  | none => rfl
  | some secret =>
      cases ah with
      | none => rfl
      | some auth =>
          simp only [handleAnalyticsReport]
          rw [show resolveDomain host none = host from rfl, hres]

/-- C9 witness: the theorem applied to a concrete malformed domain parameter
(a value starting with a hyphen). -/
theorem report_invalid_domain_falls_back_to_host_witness :
    resolveDomain "example.com"
        (ReportRequest.mk (some "Bearer tok") (some "-bad-") (some "2026-01-01")
          (some "2026-01-01")).domainParam = "example.com" ∧
    handleAnalyticsReport (some "tok") "example.com" (fun _ _ => none)
        ⟨some "Bearer tok", some "-bad-", some "2026-01-01", some "2026-01-01"⟩
      = handleAnalyticsReport (some "tok") "example.com" (fun _ _ => none)
          ⟨some "Bearer tok", none, some "2026-01-01", some "2026-01-01"⟩ :=
  report_invalid_domain_falls_back_to_host (some "tok") "example.com"
    (fun _ _ => none)
    ⟨some "Bearer tok", some "-bad-", some "2026-01-01", some "2026-01-01"⟩
    "-bad-" rfl (by decide)

/-- C4: for every authorized report request whose inclusive date range spans
more than 366 days, the report operation returns the 400 boundary error
"Date range too large (max 366 days)" and performs no key-value store read
(the read trace is empty; the report path never writes, so the store observed
by any later operation is unchanged). -/
theorem report_range_over_366_rejected_before_reads (secret host : String)
    (store : String → Int → Option DailyAnalytics) (req : ReportRequest)
    (auth : String) (ha : req.authHeader = some auth)
    (h1 : startsWithBearer auth = true) (h2 : bearerToken auth = secret)
    (hlen : 366 < (getDateRange (req.fromParam.getD "") (req.toParam.getD "")).length) :
    handleAnalyticsReport (some secret) host store req
      = (.err 400 "Date range too large (max 366 days)", []) := by
  rw [handler_auth_ok secret host store req auth ha h1 h2]
  have hnil : getDateRange (req.fromParam.getD "") (req.toParam.getD "") ≠ [] := by
    intro h
    rw [h] at hlen
    simp at hlen
  obtain ⟨f, t, hf, ht, -, -⟩ := getDateRange_ne_nil_inv hnil
  have hffs : isDateFormat (req.fromParam.getD "") = true := parseJsDate_isDateFormat hf
  have hfts : isDateFormat (req.toParam.getD "") = true := parseJsDate_isDateFormat ht
  have hnef : req.fromParam.getD "" ≠ "" := isDateFormat_ne_empty hffs
  have hnet : req.toParam.getD "" ≠ "" := isDateFormat_ne_empty hfts
  have hlen0 : ¬((getDateRange (req.fromParam.getD "") (req.toParam.getD "")).length = 0) := by
    omega
  simp [reportCore, hnef, hnet, hffs, hfts, hlen0, hlen]

/-- C4 witness: the theorem applied to a concrete authorized request over the
732-day range 2024-01-01 .. 2026-01-01. -/
theorem report_range_over_366_rejected_before_reads_witness :
    handleAnalyticsReport (some "tok") "example.com" (fun _ _ => none)
        ⟨some "Bearer tok", none, some "2024-01-01", some "2026-01-01"⟩
      = (.err 400 "Date range too large (max 366 days)", []) :=
  report_range_over_366_rejected_before_reads "tok" "example.com"
    (fun _ _ => none)
    ⟨some "Bearer tok", none, some "2024-01-01", some "2026-01-01"⟩
    "Bearer tok" rfl (by decide) (by decide) (by decide)

/-- C6 counterexample: the claim states that each reported category
`acceptRate` equals `accepted / (accepted + rejected)` rounded to 3 decimal
places with round-half-up on the third decimal digit. At the concrete summed
category totals `accepted = 1001`, `rejected = 999` the program computes the
binary64 product `(1001 / 2000) * 1000 = 500.49999999999994`, whose
`Math.round` is `500`, so `calculateAcceptRate` — and with it the `analytics`
rate of the report built from a store holding those totals — returns `0.5`,
while round-half-up of the exact quotient `0.5005` demands `0.501`. -/
theorem acceptRate_roundHalfUp_counterexample :
    calculateAcceptRate ⟨1001, 999⟩ = 1/2 ∧
    (buildReport (fun _ d => if d = 0 then
        some { banner_shown := 0, consent_given := 0, consent_updated := 0,
               banner_dismissed := 0, cat_analytics := ⟨1001, 999⟩,
               cat_marketing := ⟨0, 0⟩, cat_functional := ⟨0, 0⟩,
               timeToDecision := ⟨.num 0, 0⟩ }
      else none) "example.com" "2026-01-01" "2026-01-01" [0]).byCategory.analytics
      = 1/2 ∧
    acceptRateSpec 1001 999 = 501/1000 ∧
    ((1 : ℚ)/2 ≠ 501/1000) := by
  refine ⟨?_, ?_, ?_, ?_⟩
  · with_unfolding_all decide
  · with_unfolding_all decide
  · with_unfolding_all decide
  · with_unfolding_all decide

/-- C6 (amended): in every report the handler generates, each category's
`acceptRate` equals the IEEE-754 binary64 evaluation of
`Math.round((accepted / (accepted + rejected)) * 1000) / 1000` over the
range's summed category totals when that sum is positive — each arithmetic
step rounding its exact result to the nearest double — and equals `0` when
the sum is `0` (`acceptRateDouble` is that formula over the two sums, which
range over the records fetched for the enumerated dates). At tie points of
the double grid this differs from exact round-half-up to 3 decimals. -/
theorem report_acceptRate_double_semantics (secret host : String)
    (store : String → Int → Option DailyAnalytics) (req : ReportRequest)
    (auth : String) (r : AnalyticsReport) (reads : List (String × Int))
    (ha : req.authHeader = some auth) (h1 : startsWithBearer auth = true)
    (h2 : bearerToken auth = secret)
    (hok : handleAnalyticsReport (some secret) host store req = (.ok r, reads)) :
    (r.byCategory.analytics = acceptRateDouble
        (((getDateRange (req.fromParam.getD "") (req.toParam.getD "")).filterMap
            (store (resolveDomain host req.domainParam))).map
          (fun rec => rec.cat_analytics.accepted)).sum
        (((getDateRange (req.fromParam.getD "") (req.toParam.getD "")).filterMap
            (store (resolveDomain host req.domainParam))).map
          (fun rec => rec.cat_analytics.rejected)).sum) ∧
    (r.byCategory.marketing = acceptRateDouble
        (((getDateRange (req.fromParam.getD "") (req.toParam.getD "")).filterMap
            (store (resolveDomain host req.domainParam))).map
          (fun rec => rec.cat_marketing.accepted)).sum
        (((getDateRange (req.fromParam.getD "") (req.toParam.getD "")).filterMap
            (store (resolveDomain host req.domainParam))).map
          (fun rec => rec.cat_marketing.rejected)).sum) ∧
    (r.byCategory.functional = acceptRateDouble
        (((getDateRange (req.fromParam.getD "") (req.toParam.getD "")).filterMap
            (store (resolveDomain host req.domainParam))).map
          (fun rec => rec.cat_functional.accepted)).sum
        (((getDateRange (req.fromParam.getD "") (req.toParam.getD "")).filterMap
            (store (resolveDomain host req.domainParam))).map
          (fun rec => rec.cat_functional.rejected)).sum) := by
  rw [handler_auth_ok secret host store req auth ha h1 h2] at hok
  obtain ⟨hr, -, -, -⟩ := reportCore_ok_inv hok
  subst hr
  rw [buildReport_byCategory]
  exact ⟨rfl, rfl, rfl⟩

/-- C6 witness: the amended theorem applied to a concrete authorized request
(an empty store over the one-day range 2026-01-01 .. 2026-01-01). -/
theorem report_acceptRate_double_semantics_witness :
    (let store0 : String → Int → Option DailyAnalytics := fun _ _ => none
    let req1 : ReportRequest :=
      ⟨some "Bearer tok", none, some "2026-01-01", some "2026-01-01"⟩
    let r1 : AnalyticsReport :=
      { domain := "example.com", periodFrom := "2026-01-01",
        periodTo := "2026-01-01",
        totals := ⟨0, 0, 0, 0, 0⟩,
        byCategory := ⟨0, 0, 0⟩,
        avgTimeToDecision := none,
        daily := [] }
    (r1.byCategory.analytics = acceptRateDouble
        (((getDateRange (req1.fromParam.getD "") (req1.toParam.getD "")).filterMap
            (store0 (resolveDomain "example.com" req1.domainParam))).map
          (fun rec => rec.cat_analytics.accepted)).sum
        (((getDateRange (req1.fromParam.getD "") (req1.toParam.getD "")).filterMap
            (store0 (resolveDomain "example.com" req1.domainParam))).map
          (fun rec => rec.cat_analytics.rejected)).sum) ∧
    (r1.byCategory.marketing = acceptRateDouble
        (((getDateRange (req1.fromParam.getD "") (req1.toParam.getD "")).filterMap
            (store0 (resolveDomain "example.com" req1.domainParam))).map
          (fun rec => rec.cat_marketing.accepted)).sum
        (((getDateRange (req1.fromParam.getD "") (req1.toParam.getD "")).filterMap
            (store0 (resolveDomain "example.com" req1.domainParam))).map
          (fun rec => rec.cat_marketing.rejected)).sum) ∧
    (r1.byCategory.functional = acceptRateDouble
        (((getDateRange (req1.fromParam.getD "") (req1.toParam.getD "")).filterMap
            (store0 (resolveDomain "example.com" req1.domainParam))).map
          (fun rec => rec.cat_functional.accepted)).sum
        (((getDateRange (req1.fromParam.getD "") (req1.toParam.getD "")).filterMap
            (store0 (resolveDomain "example.com" req1.domainParam))).map
          (fun rec => rec.cat_functional.rejected)).sum)) :=
  report_acceptRate_double_semantics "tok" "example.com" (fun _ _ => none)
    ⟨some "Bearer tok", none, some "2026-01-01", some "2026-01-01"⟩
    "Bearer tok"
    { domain := "example.com", periodFrom := "2026-01-01",
      periodTo := "2026-01-01",
      totals := ⟨0, 0, 0, 0, 0⟩,
      byCategory := ⟨0, 0, 0⟩,
      avgTimeToDecision := none,
      daily := [] }
    [("example.com", epochDay 2026 1 1)]
    rfl (by decide) (by decide) (by with_unfolding_all decide)

/-- C7: in every report the handler generates, `avgTimeToDecision` equals
`Math.round(sum / count)` of the summed time-to-decision accumulators when
the summed count is positive, and is the absent value `none` (in particular
never the number `0`) when the summed count is `0`. -/
theorem report_avgTimeToDecision_matches_spec (secret host : String)
    (store : String → Int → Option DailyAnalytics) (req : ReportRequest)
    (auth : String) (r : AnalyticsReport) (reads : List (String × Int))
    (ha : req.authHeader = some auth) (h1 : startsWithBearer auth = true)
    (h2 : bearerToken auth = secret)
    (hok : handleAnalyticsReport (some secret) host store req = (.ok r, reads)) :
    r.avgTimeToDecision =
      (if 0 < (((getDateRange (req.fromParam.getD "") (req.toParam.getD "")).filterMap
              (store (resolveDomain host req.domainParam))).map
            (fun rec => rec.timeToDecision.count)).sum
       then some (jsRound
          ((((getDateRange (req.fromParam.getD "") (req.toParam.getD "")).filterMap
                (store (resolveDomain host req.domainParam))).foldl
              (fun acc rec => acc.add rec.timeToDecision.sum) (JSNum.num 0)).divNat
            ((((getDateRange (req.fromParam.getD "") (req.toParam.getD "")).filterMap
                  (store (resolveDomain host req.domainParam))).map
                (fun rec => rec.timeToDecision.count)).sum)))
       else none) ∧
    ((((getDateRange (req.fromParam.getD "") (req.toParam.getD "")).filterMap
          (store (resolveDomain host req.domainParam))).map
        (fun rec => rec.timeToDecision.count)).sum = 0 →
      r.avgTimeToDecision = none) := by
  rw [handler_auth_ok secret host store req auth ha h1 h2] at hok
  obtain ⟨hr, -, -, -⟩ := reportCore_ok_inv hok
  subst hr
  rw [buildReport_avg]
  constructor
  · rfl
  · intro hz
    rw [hz]
    simp

/-- C7 witness: the theorem applied to a concrete authorized request (an
empty store, so the summed count is 0 and the average is absent). -/
theorem report_avgTimeToDecision_matches_spec_witness :
    (let store0 : String → Int → Option DailyAnalytics := fun _ _ => none
    let req1 : ReportRequest :=
      ⟨some "Bearer tok", none, some "2026-01-02", some "2026-01-02"⟩
    let r1 : AnalyticsReport :=
      { domain := "example.com", periodFrom := "2026-01-02",
        periodTo := "2026-01-02",
        totals := ⟨0, 0, 0, 0, 0⟩,
        byCategory := ⟨0, 0, 0⟩,
        avgTimeToDecision := none,
        daily := [] }
    r1.avgTimeToDecision =
      (if 0 < (((getDateRange (req1.fromParam.getD "") (req1.toParam.getD "")).filterMap
              (store0 (resolveDomain "example.com" req1.domainParam))).map
            (fun rec => rec.timeToDecision.count)).sum
       then some (jsRound
          ((((getDateRange (req1.fromParam.getD "") (req1.toParam.getD "")).filterMap
                (store0 (resolveDomain "example.com" req1.domainParam))).foldl
              (fun acc rec => acc.add rec.timeToDecision.sum) (JSNum.num 0)).divNat
            ((((getDateRange (req1.fromParam.getD "") (req1.toParam.getD "")).filterMap
                  (store0 (resolveDomain "example.com" req1.domainParam))).map
                (fun rec => rec.timeToDecision.count)).sum)))
       else none) ∧
    ((((getDateRange (req1.fromParam.getD "") (req1.toParam.getD "")).filterMap
          (store0 (resolveDomain "example.com" req1.domainParam))).map
        (fun rec => rec.timeToDecision.count)).sum = 0 →
      r1.avgTimeToDecision = none)) :=
  report_avgTimeToDecision_matches_spec "tok" "example.com" (fun _ _ => none)
    ⟨some "Bearer tok", none, some "2026-01-02", some "2026-01-02"⟩
    "Bearer tok"
    { domain := "example.com", periodFrom := "2026-01-02",
      periodTo := "2026-01-02",
      totals := ⟨0, 0, 0, 0, 0⟩,
      byCategory := ⟨0, 0, 0⟩,
      avgTimeToDecision := none,
      daily := [] }
    [("example.com", epochDay 2026 1 2)]
    rfl (by decide) (by decide) (by with_unfolding_all decide)

/-- C8: for every valid report request (the handler produced a report, which
requires `fromDate <= toDate`), the report's `daily` breakdown is exactly the
ascending enumeration of the UTC calendar dates of `[fromDate, toDate]` that
have a stored record — one entry per such date, carrying that date's four raw
event counters; dates with no stored record are skipped, and the four totals
are the sums over the fetched records only, so skipped dates contribute
nothing. -/
theorem report_daily_breakdown (secret host : String)
    (store : String → Int → Option DailyAnalytics) (req : ReportRequest)
    (auth : String) (r : AnalyticsReport) (reads : List (String × Int))
    (ha : req.authHeader = some auth) (h1 : startsWithBearer auth = true)
    (h2 : bearerToken auth = secret)
    (hok : handleAnalyticsReport (some secret) host store req = (.ok r, reads)) :
    (∃ f t, parseJsDate (req.fromParam.getD "") = some f ∧
        parseJsDate (req.toParam.getD "") = some t ∧ f ≤ t ∧
        getDateRange (req.fromParam.getD "") (req.toParam.getD "")
          = rangeDays f t) ∧
    r.daily = (getDateRange (req.fromParam.getD "") (req.toParam.getD "")).filterMap
        (fun d => (store (resolveDomain host req.domainParam) d).map (fun a =>
          ⟨d, a.banner_shown, a.consent_given, a.consent_updated,
           a.banner_dismissed⟩)) ∧
    r.daily.map (fun e => e.date)
      = (getDateRange (req.fromParam.getD "") (req.toParam.getD "")).filter
          (fun d => (store (resolveDomain host req.domainParam) d).isSome) ∧
    (r.daily.map (fun e => e.date)).Pairwise (· < ·) ∧
    r.totals.bannerShown
      = (((getDateRange (req.fromParam.getD "") (req.toParam.getD "")).filterMap
            (store (resolveDomain host req.domainParam))).map
          (fun rec => rec.banner_shown)).sum ∧
    r.totals.consentGiven
      = (((getDateRange (req.fromParam.getD "") (req.toParam.getD "")).filterMap
            (store (resolveDomain host req.domainParam))).map
          (fun rec => rec.consent_given)).sum ∧
    r.totals.consentUpdated
      = (((getDateRange (req.fromParam.getD "") (req.toParam.getD "")).filterMap
            (store (resolveDomain host req.domainParam))).map
          (fun rec => rec.consent_updated)).sum ∧
    r.totals.bannerDismissed
      = (((getDateRange (req.fromParam.getD "") (req.toParam.getD "")).filterMap
            (store (resolveDomain host req.domainParam))).map
          (fun rec => rec.banner_dismissed)).sum := by
  rw [handler_auth_ok secret host store req auth ha h1 h2] at hok
  obtain ⟨hr, -, hnil, -⟩ := reportCore_ok_inv hok
  subst hr
  obtain ⟨ht1, ht2, ht3, ht4⟩ := buildReport_totals store
    (resolveDomain host req.domainParam) (req.fromParam.getD "")
    (req.toParam.getD "") (getDateRange (req.fromParam.getD "") (req.toParam.getD ""))
  refine ⟨getDateRange_ne_nil_inv hnil, buildReport_daily _ _ _ _ _, ?_, ?_,
    ht1, ht2, ht3, ht4⟩
  · rw [buildReport_daily]
    exact filterMap_entry_dates
      (getDateRange (req.fromParam.getD "") (req.toParam.getD ""))
      (store (resolveDomain host req.domainParam))
  · rw [buildReport_daily, filterMap_entry_dates
      (getDateRange (req.fromParam.getD "") (req.toParam.getD ""))
      (store (resolveDomain host req.domainParam))]
    exact (getDateRange_pairwise (req.fromParam.getD "")
      (req.toParam.getD "")).filter _

/-- C8 witness: the theorem applied to a concrete authorized request (an
empty store over the two-day range 2026-01-03 .. 2026-01-04; both dates are
skipped and the breakdown is empty). -/
theorem report_daily_breakdown_witness :
    (let store0 : String → Int → Option DailyAnalytics := fun _ _ => none
    let req1 : ReportRequest :=
      ⟨some "Bearer tok", none, some "2026-01-03", some "2026-01-04"⟩
    let r1 : AnalyticsReport :=
      { domain := "example.com", periodFrom := "2026-01-03",
        periodTo := "2026-01-04",
        totals := ⟨0, 0, 0, 0, 0⟩,
        byCategory := ⟨0, 0, 0⟩,
        avgTimeToDecision := none,
        daily := [] }
    (∃ f t, parseJsDate (req1.fromParam.getD "") = some f ∧
        parseJsDate (req1.toParam.getD "") = some t ∧ f ≤ t ∧
        getDateRange (req1.fromParam.getD "") (req1.toParam.getD "")
          = rangeDays f t) ∧
    r1.daily = (getDateRange (req1.fromParam.getD "") (req1.toParam.getD "")).filterMap
        (fun d => (store0 (resolveDomain "example.com" req1.domainParam) d).map (fun a =>
          ⟨d, a.banner_shown, a.consent_given, a.consent_updated,
           a.banner_dismissed⟩)) ∧
    r1.daily.map (fun e => e.date)
      = (getDateRange (req1.fromParam.getD "") (req1.toParam.getD "")).filter
          (fun d => (store0 (resolveDomain "example.com" req1.domainParam) d).isSome) ∧
    (r1.daily.map (fun e => e.date)).Pairwise (· < ·) ∧
    r1.totals.bannerShown
      = (((getDateRange (req1.fromParam.getD "") (req1.toParam.getD "")).filterMap
            (store0 (resolveDomain "example.com" req1.domainParam))).map
          (fun rec => rec.banner_shown)).sum ∧
    r1.totals.consentGiven
      = (((getDateRange (req1.fromParam.getD "") (req1.toParam.getD "")).filterMap
            (store0 (resolveDomain "example.com" req1.domainParam))).map
          (fun rec => rec.consent_given)).sum ∧
    r1.totals.consentUpdated
      = (((getDateRange (req1.fromParam.getD "") (req1.toParam.getD "")).filterMap
            (store0 (resolveDomain "example.com" req1.domainParam))).map
          (fun rec => rec.consent_updated)).sum ∧
    r1.totals.bannerDismissed
      = (((getDateRange (req1.fromParam.getD "") (req1.toParam.getD "")).filterMap
            (store0 (resolveDomain "example.com" req1.domainParam))).map
          (fun rec => rec.banner_dismissed)).sum) :=
  report_daily_breakdown "tok" "example.com" (fun _ _ => none)
    ⟨some "Bearer tok", none, some "2026-01-03", some "2026-01-04"⟩
    "Bearer tok"
    { domain := "example.com", periodFrom := "2026-01-03",
      periodTo := "2026-01-04",
      totals := ⟨0, 0, 0, 0, 0⟩,
      byCategory := ⟨0, 0, 0⟩,
      avgTimeToDecision := none,
      daily := [] }
    [("example.com", epochDay 2026 1 3), ("example.com", epochDay 2026 1 4)]
    rfl (by decide) (by decide) (by with_unfolding_all decide)

lemma rateLimitCheck_valid_active (cfg : RateLimitConfig) (c : Nat) (r now : Int)
    (h : now < r) :
    rateLimitCheck cfg (.valid ⟨c, r⟩) now
      = (⟨decide (c + 1 ≤ cfg.maxRequests), cfg.maxRequests - (c + 1), r,
          cfg.maxRequests⟩,
         if c + 1 ≤ cfg.maxRequests then .valid ⟨c + 1, r⟩ else .valid ⟨c, r⟩) := by
  by_cases hca : c + 1 ≤ cfg.maxRequests <;> simp [rateLimitCheck, h, hca]

lemma rateLimitRun_valid_formula (cfg : RateLimitConfig) (r : Int) :
    ∀ (ts : List Int) (c : Nat), (∀ t ∈ ts, t < r) → c ≤ cfg.maxRequests →
      (rateLimitRun cfg (.valid ⟨c, r⟩) ts).1
        = (List.range ts.length).map (fun i =>
            ⟨decide (c + i + 1 ≤ cfg.maxRequests),
             cfg.maxRequests - (c + i + 1), r, cfg.maxRequests⟩) := by
  intro ts
  induction ts with
  | nil => intro c _ _; simp [rateLimitRun]
  | cons t ts ih =>
      intro c hts hc
      have ht : t < r := hts t (List.mem_cons_self _ _)
      have hts' : ∀ x ∈ ts, x < r := fun x hx => hts x (List.mem_cons_of_mem _ hx)
      by_cases hca : c + 1 ≤ cfg.maxRequests
      · simp only [rateLimitRun, rateLimitCheck_valid_active cfg c r t ht,
          if_pos hca]
        rw [ih (c + 1) hts' hca]
        simp only [List.length_cons]
        rw [List.range_succ_eq_map]
        simp only [List.map_cons, List.map_map, List.cons.injEq]
        refine ⟨?_, ?_⟩
        · trivial
        · apply List.map_congr_left
          intro i _
          simp only [Function.comp]
          congr 1
          · rw [decide_eq_decide]
            omega
          · omega
      · have hcm : c = cfg.maxRequests := by omega
        simp only [rateLimitRun, rateLimitCheck_valid_active cfg c r t ht,
          if_neg hca]
        rw [ih c hts' hc]
        simp only [List.length_cons]
        rw [List.range_succ_eq_map]
        simp only [List.map_cons, List.map_map, List.cons.injEq]
        refine ⟨?_, ?_⟩
        · trivial
        · apply List.map_congr_left
          intro i _
          simp only [Function.comp]
          congr 1
          · rw [decide_eq_decide]
            omega
          · omega

/-- C1 (modelled from the spec; the rate limiter implementation is absent from
the provided sources): for every valid configuration and every sequence of
checks for one identity all falling within the window opened by the first
check (the first check at time `t0` on an empty store, every later one at a
time `t` with `t0 <= t < t0 + windowSeconds`), the `i`-th check (0-indexed
`i`, so 1-indexed `i + 1`) is allowed iff `i + 1 <= maxRequests`, and when it
is allowed its `remaining` equals `maxRequests - (i + 1)`. -/
theorem rateLimiter_window_sequence (cfg : RateLimitConfig)
    (hmax : 1 ≤ cfg.maxRequests) (hwin : 1 ≤ cfg.windowSeconds)
    (t0 : Int) (rest : List Int)
    (hrest : ∀ t ∈ rest, t0 ≤ t ∧ t < t0 + (cfg.windowSeconds : Int))
    (i : Nat) (hi : i < rest.length + 1) :
    (((rateLimitRun cfg .absent (t0 :: rest)).1.getD i ⟨false, 0, 0, 0⟩).allowed
        = true ↔ i + 1 ≤ cfg.maxRequests) ∧
    (i + 1 ≤ cfg.maxRequests →
      ((rateLimitRun cfg .absent (t0 :: rest)).1.getD i ⟨false, 0, 0, 0⟩).remaining
        = cfg.maxRequests - (i + 1)) := by
  have hfirst : rateLimitCheck cfg .absent t0
      = (⟨true, cfg.maxRequests - 1, t0 + (cfg.windowSeconds : Int),
          cfg.maxRequests⟩,
         .valid ⟨1, t0 + (cfg.windowSeconds : Int)⟩) := by
    simp [rateLimitCheck, hmax]
  have hrun := rateLimitRun_valid_formula cfg (t0 + (cfg.windowSeconds : Int))
    rest 1 (fun x hx => (hrest x hx).2) hmax
  have hlist : (rateLimitRun cfg .absent (t0 :: rest)).1
      = (⟨true, cfg.maxRequests - 1, t0 + (cfg.windowSeconds : Int),
          cfg.maxRequests⟩ : RateLimitResult)
        :: (rateLimitRun cfg
            (.valid ⟨1, t0 + (cfg.windowSeconds : Int)⟩) rest).1 := by
    simp [rateLimitRun, hfirst]
  rw [hlist, hrun]
  cases i with
  | zero =>
      simp only [List.getD_cons_zero]
      refine ⟨?_, ?_⟩
      · simp [hmax]
      · intro h'
        trivial
  | succ j =>
      have hj : j < rest.length := by omega
      simp only [List.getD_cons_succ, hrun]
      rw [List.getD_eq_getElem?_getD, List.getElem?_map, List.getElem?_range hj]
      simp only [Option.map_some', Option.getD_some]
      constructor
      · rw [decide_eq_true_iff]
        omega
      · intro hle
        have : 1 + j + 1 = j + 1 + 1 := by omega
        rw [this]

/-- C1 witness: configuration `{maxRequests := 2, windowSeconds := 60}` and
three checks at times 0, 1, 2; the third check (index 2) is denied. -/
theorem rateLimiter_window_sequence_witness :
    ((((rateLimitRun ⟨2, 60⟩ .absent (0 :: [1, 2])).1.getD 2
        ⟨false, 0, 0, 0⟩).allowed = true ↔ 2 + 1 ≤ (2 : Nat)) ∧
     (2 + 1 ≤ (2 : Nat) →
      ((rateLimitRun ⟨2, 60⟩ .absent (0 :: [1, 2])).1.getD 2
        ⟨false, 0, 0, 0⟩).remaining = 2 - (2 + 1))) :=
  rateLimiter_window_sequence ⟨2, 60⟩ (by decide) (by decide) 0 [1, 2]
    (by decide) 2 (by decide)

/-- C5 (modelled from the spec; the rate limiter implementation is absent from
the provided sources): for every valid configuration, a rate-limit check that
is denied leaves the stored state for that identity unchanged, and repeating
the check at any time before the result's `resetAt` yields the exact same
denial with the same `resetAt` — the window can only end by time passing. -/
theorem rateLimiter_denied_writes_nothing (cfg : RateLimitConfig)
    (hmax : 1 ≤ cfg.maxRequests) (stored : StoredRateLimit) (now : Int)
    (hden : (rateLimitCheck cfg stored now).1.allowed = false) :
    (rateLimitCheck cfg stored now).2 = stored ∧
    ∀ latertime : Int, latertime < (rateLimitCheck cfg stored now).1.resetAt →
      rateLimitCheck cfg stored latertime = rateLimitCheck cfg stored now := by
  cases stored with
  | absent =>
      exfalso
      simp [rateLimitCheck, hmax] at hden
  | malformed =>
      exfalso
      simp [rateLimitCheck, hmax] at hden
  | valid st =>
      by_cases hact : now < st.resetAt
      · by_cases hca : st.count + 1 ≤ cfg.maxRequests
        · exfalso
          simp [rateLimitCheck, hact, hca] at hden
        · constructor
          · simp [rateLimitCheck, hact, hca]
          · intro latertime hlt
            have hres : (rateLimitCheck cfg (.valid st) now).1.resetAt
                = st.resetAt := by
              simp [rateLimitCheck, hact, hca]
            rw [hres] at hlt
            simp [rateLimitCheck, hact, hca, hlt]
      · exfalso
        simp [rateLimitCheck, hact, hmax] at hden

/-- C5 witness: configuration `{maxRequests := 1, windowSeconds := 60}` with a
stored state at capacity (`count = 1`, `resetAt = 100`); the check at time 0
is denied, writes nothing, and repeats identically at time 50. -/
theorem rateLimiter_denied_writes_nothing_witness :
    ((rateLimitCheck ⟨1, 60⟩ (.valid ⟨1, 100⟩) 0).2 = .valid ⟨1, 100⟩ ∧
     ∀ latertime : Int,
       latertime < (rateLimitCheck ⟨1, 60⟩ (.valid ⟨1, 100⟩) 0).1.resetAt →
       rateLimitCheck ⟨1, 60⟩ (.valid ⟨1, 100⟩) latertime
         = rateLimitCheck ⟨1, 60⟩ (.valid ⟨1, 100⟩) 0) :=
  rateLimiter_denied_writes_nothing ⟨1, 60⟩ (by decide) (.valid ⟨1, 100⟩) 0
    (by decide)

end VPW
